import Mathlib

/-!
Verification of the Set/Lookup value-tracking engine and its duplicate
detection job, embedded from the TypeScript sources:
  - src/validations/v1.ts        (WarningDetectionJob, zod schemas)
  - src/controllers/v1/set.controller.ts
  - src/controllers/v1/lookup.controller.ts
  - the warning controller (WarningController)
Machine data (strings, JSON, timestamps) is modelled with String, opaque
serialized JSON text, and Nat epoch timestamps; the Prisma store is
modelled as explicit lists of records threaded through each operation.
-/

namespace Stratagems

/-! ## Duplicate Detection Job: data model

The job reads `prisma.lookup.findMany({include: {values: true}})` and only
accesses `value.id`, `value.left`, `value.right` of each row, and
`lookup.id`, `lookup.name`; the embedding keeps exactly those fields. -/

/-- A LookupValue row as seen by the duplicate detection job. -/
structure LookupValue where
  id : String
  left : String
  right : String
deriving DecidableEq, Repr

/-- A Lookup with its included values, as loaded by the job. -/
structure Lookup where
  id : String
  name : String
  values : List LookupValue
deriving DecidableEq, Repr

/-- The Prisma `WarningSeverity` enum. Declaration order
(LOW, MEDIUM, HIGH, CRITICAL) is modelled from the spec data model, the
Prisma schema file not being part of the sources. -/
inductive WarningSeverity
  | LOW
  | MEDIUM
  | HIGH
  | CRITICAL
deriving DecidableEq, Repr

/-- Result entry of `findLeftDuplicates` / `findRightDuplicates`:
`{value, count, ids}`. -/
structure SideDup where
  value : String
  count : Nat
  ids : List String
deriving DecidableEq, Repr

/-- Result entry of `findLeftRightDuplicates`: `{left, right, count, ids}`. -/
structure PairDup where
  left : String
  right : String
  count : Nat
  ids : List String
deriving DecidableEq, Repr

/-- The `details` JSON payload attached to a job warning: either the
single-side form `{duplicateValue, duplicateType, duplicateCount}` or the
pair form `{duplicateLeft, duplicateRight, duplicateType, duplicateCount}`. -/
inductive WarnDetails
  | side (duplicateValue : String) (duplicateType : String) (duplicateCount : Nat)
  | pair (duplicateLeft : String) (duplicateRight : String)
      (duplicateType : String) (duplicateCount : Nat)
deriving DecidableEq, Repr

/-- A Warning record as written by the detection job. The job sets the
fields below; `isResolved` is not in its `createMany` payload and takes the
store default, which is `false` (modelled from the spec: a still-duplicate
row "will reappear unresolved next run"). -/
structure Warning where
  type : String
  typeName : String
  typeId : String
  itemId : String
  leftDuplicate : Bool
  rightDuplicate : Bool
  leftRightDuplicate : Bool
  severity : WarningSeverity
  details : WarnDetails
  isResolved : Bool
deriving DecidableEq, Repr

/-! ## Duplicate grouping

The source groups ids into a JS `Map<string, string[]>` keyed by left,
right, or the composite `left|right` string; JS Map iteration follows key
first-insertion order, and ids are pushed in encounter order. -/

/-- Insert one id under `key`, preserving JS `Map` semantics: an existing
key keeps its position and appends the id, a new key goes to the end. -/
def insertGroup (groups : List (String × List String)) (key : String)
    (vid : String) : List (String × List String) :=
  match groups with
  | [] => [(key, [vid])]
  | (k, ids) :: rest =>
    if k = key then (k, ids ++ [vid]) :: rest
    else (k, ids) :: insertGroup rest key vid

/-- `values.forEach(v => map.get(keyOf v).push(v.id))` over an initially
empty map. -/
def groupByKey (keyOf : LookupValue → String) (values : List LookupValue) :
    List (String × List String) :=
  values.foldl (fun gs v => insertGroup gs (keyOf v) v.id) []

/-- `WarningDetectionJob.findLeftDuplicates`: groups with more than one id. -/
def findLeftDuplicates (values : List LookupValue) : List SideDup :=
  (groupByKey (fun v => v.left) values).filterMap fun g =>
    if g.2.length > 1 then some ⟨g.1, g.2.length, g.2⟩ else none

/-- `WarningDetectionJob.findRightDuplicates`. -/
def findRightDuplicates (values : List LookupValue) : List SideDup :=
  (groupByKey (fun v => v.right) values).filterMap fun g =>
    if g.2.length > 1 then some ⟨g.1, g.2.length, g.2⟩ else none

/-- The composite grouping key `${value.left}|${value.right}`. -/
def pairKey (v : LookupValue) : String := v.left ++ "|" ++ v.right

/-- JS `String.prototype.split("|")` on the character list of a string. -/
def splitBar : List Char → List (List Char)
  | [] => [[]]
  | c :: cs =>
    if c = '|' then [] :: splitBar cs
    else
      match splitBar cs with
      | [] => [[c]]
      | g :: gs => (c :: g) :: gs

/-- `const [left, right] = pairKey.split("|"); if (!left || !right) skip`:
the first two split segments, provided both are present and non-empty. -/
def splitPairKey (key : String) : Option (String × String) :=
  match splitBar key.data with
  | l :: r :: _ => if l = [] ∨ r = [] then none else some (⟨l⟩, ⟨r⟩)
  | _ => none

/-- `WarningDetectionJob.findLeftRightDuplicates`: pair-key groups with
more than one id, skipping groups whose key splits back with an empty
first or second segment (the `Invalid pair key` guard). -/
def findLeftRightDuplicates (values : List LookupValue) : List PairDup :=
  (groupByKey pairKey values).filterMap fun g =>
    if g.2.length > 1 then
      match splitPairKey g.1 with
      | none => none
      | some (l, r) => some ⟨l, r, g.2.length, g.2⟩
    else none

/-- `leftRightDuplicates.some(d => d.ids.includes(valueId))`. -/
def coveredByPair (pairDups : List PairDup) (vid : String) : Bool :=
  pairDups.any fun d => d.ids.contains vid

/-- The warnings pushed for one lookup by `checkLookupDuplicates`: left
duplicates, then right duplicates (each skipping ids covered by a
left-right duplicate), then left-right duplicates. -/
def lookupWarnings (lk : Lookup) : List Warning :=
  let leftDups := findLeftDuplicates lk.values
  let rightDups := findRightDuplicates lk.values
  let pairDups := findLeftRightDuplicates lk.values
  (leftDups.flatMap fun dup =>
    dup.ids.filterMap fun vid =>
      if coveredByPair pairDups vid then none
      else some
        { type := "lookup", typeName := lk.name, typeId := lk.id,
          itemId := vid, leftDuplicate := true, rightDuplicate := false,
          leftRightDuplicate := false, severity := .MEDIUM,
          details := .side dup.value "left" dup.count, isResolved := false })
  ++ (rightDups.flatMap fun dup =>
    dup.ids.filterMap fun vid =>
      if coveredByPair pairDups vid then none
      else some
        { type := "lookup", typeName := lk.name, typeId := lk.id,
          itemId := vid, leftDuplicate := false, rightDuplicate := true,
          leftRightDuplicate := false, severity := .MEDIUM,
          details := .side dup.value "right" dup.count, isResolved := false })
  ++ (pairDups.flatMap fun dup =>
    dup.ids.map fun vid =>
      { type := "lookup", typeName := lk.name, typeId := lk.id,
        itemId := vid, leftDuplicate := false, rightDuplicate := false,
        leftRightDuplicate := true, severity := .HIGH,
        details := .pair dup.left dup.right "left-right" dup.count,
        isResolved := false })

/-- All warnings computed in one job run, over all loaded lookups in order. -/
def computeWarnings (lookups : List Lookup) : List Warning :=
  lookups.flatMap lookupWarnings

/-! ## Job effect model

The job's store effects on the Warning table are modelled as a state
monad over the stored warning list paired with an `Except` outcome; a
failing step short-circuits later steps while leaving the table in the
state it had when the failure occurred. -/

/-- A job step: transforms the stored warning list, yielding a value or
an error; on error the table state at that point is preserved. -/
def JobM (ε α : Type) := List Warning → Except ε α × List Warning

/-- Sequencing of job steps; an error short-circuits. -/
def JobM.bind {ε α β : Type} (m : JobM ε α) (f : α → JobM ε β) : JobM ε β :=
  fun ws =>
    match m ws with
    | (.ok a, ws1) => f a ws1
    | (.error e, ws1) => (.error e, ws1)

/-- `prisma.lookup.findMany({include: {values: true}})`: reads the lookup
tables; the load outcome (data or thrown error) is the job's input here. -/
def loadLookups {ε : Type} (result : Except ε (List Lookup)) :
    JobM ε (List Lookup) :=
  fun ws => (result, ws)

/-- `prisma.warning.deleteMany({where: {type: "lookup"}})`. -/
def deleteLookupTypeWarnings {ε : Type} : JobM ε Unit :=
  fun ws => (.ok (), ws.filter fun w => w.type != "lookup")

/-- `prisma.warning.createMany({data: warnings})`; inserting the empty
list is the source's `warnings.length > 0` no-op branch. -/
def createManyWarnings {ε : Type} (new : List Warning) : JobM ε Unit :=
  fun ws => (.ok (), ws ++ new)

/-- `WarningDetectionJob.checkLookupDuplicates`: load all lookups with
values, compute all duplicate warnings, then delete every stored Warning
of type "lookup" and insert the newly computed set. -/
def checkLookupDuplicates {ε : Type} (load : Except ε (List Lookup)) :
    JobM ε Unit :=
  JobM.bind (loadLookups load) fun lookups =>
    JobM.bind deleteLookupTypeWarnings fun _ =>
      createManyWarnings (computeWarnings lookups)

/-- `WarningDetectionJob.execute`: runs the lookup duplicate check and
rethrows its error. -/
def executeJob {ε : Type} (load : Except ε (List Lookup)) : JobM ε Unit :=
  checkLookupDuplicates load

/-! ## Helper lemmas on the composite pair key -/

theorem bar_split_eq {u : List Char} :
    ∀ {v r s : List Char}, '|' ∉ u → '|' ∉ v →
      u ++ '|' :: r = v ++ '|' :: s → u = v ∧ r = s := by
  induction u with
  | nil =>
    intro v r s _ hv h
    cases v with
    | nil => simpa using h
    | cons c v2 =>
      rw [List.nil_append, List.cons_append] at h
      injection h with h1 h2
      have : '|' ∈ c :: v2 := by
        rw [← h1]
        exact List.mem_cons_self _ _
      exact absurd this hv
  | cons c u2 ih =>
    intro v r s hu hv h
    cases v with
    | nil =>
      rw [List.cons_append, List.nil_append] at h
      injection h with h1 h2
      have : '|' ∈ c :: u2 := by
        rw [h1]
        exact List.mem_cons_self _ _
      exact absurd this hu
    | cons d v2 =>
      rw [List.cons_append, List.cons_append] at h
      injection h with h1 h2
      obtain ⟨hu2, hr⟩ := ih (fun hm => hu (List.mem_cons_of_mem _ hm))
        (fun hm => hv (List.mem_cons_of_mem _ hm)) h2
      exact ⟨by rw [h1, hu2], hr⟩

theorem noBar_append_eq {u v r s : List Char} (hu : '|' ∉ u) (hv : '|' ∉ v) :
    u ++ '|' :: r = v ++ '|' :: s ↔ u = v ∧ r = s := by
  constructor
  · exact bar_split_eq hu hv
  · rintro ⟨rfl, rfl⟩
    rfl

theorem barKey_data (a c : String) :
    (a ++ "|" ++ c).data = a.data ++ '|' :: c.data := by
  simp [String.data_append]

/-- Two composite keys with bar-free left parts agree exactly when both
components agree. -/
theorem barKey_eq {a b c d : String} (ha : '|' ∉ a.data) (hb : '|' ∉ b.data) :
    a ++ "|" ++ c = b ++ "|" ++ d ↔ a = b ∧ c = d := by
  constructor
  · intro h
    have hd : a.data ++ '|' :: c.data = b.data ++ '|' :: d.data := by
      rw [← barKey_data, ← barKey_data, h]
    obtain ⟨h1, h2⟩ := (noBar_append_eq ha hb).1 hd
    exact ⟨String.ext h1, String.ext h2⟩
  · rintro ⟨rfl, rfl⟩
    rfl

theorem barKey_cancel_left {a c d : String} :
    a ++ "|" ++ c = a ++ "|" ++ d ↔ c = d := by
  constructor
  · intro h
    have hd := congrArg String.data h
    rw [barKey_data, barKey_data, List.append_right_inj] at hd
    exact String.ext (by injection hd)
  · rintro rfl
    rfl

theorem barKey_cancel_right {a b c : String} :
    a ++ "|" ++ c = b ++ "|" ++ c ↔ a = b := by
  constructor
  · intro h
    have hd := congrArg String.data h
    rw [barKey_data, barKey_data, List.append_left_inj] at hd
    exact String.ext hd
  · rintro rfl
    rfl

theorem splitBar_ne_nil : ∀ (l : List Char), splitBar l ≠ []
  | [] => by simp [splitBar]
  | c :: cs => by
    rw [splitBar]
    split
    · simp
    · cases h : splitBar cs <;> simp

theorem splitBar_noBar : ∀ {l : List Char}, '|' ∉ l → splitBar l = [l]
  | [], _ => rfl
  | c :: cs, h => by
    have hc : ¬ c = '|' := by
      intro hc
      refine h ?_
      rw [hc]
      exact List.mem_cons_self _ _
    rw [splitBar, if_neg hc, splitBar_noBar (fun hm => h (List.mem_cons_of_mem _ hm))]

theorem splitBar_barFree_append {u r : List Char} (hu : '|' ∉ u) :
    splitBar (u ++ '|' :: r) = u :: splitBar r := by
  induction u with
  | nil => simp [splitBar]
  | cons c u2 ih =>
    have hc : ¬ c = '|' := fun hc => hu (hc ▸ List.mem_cons_self _ _)
    rw [List.cons_append, splitBar, if_neg hc,
      ih (fun h => hu (List.mem_cons_of_mem _ h))]

/-- With bar-free non-empty components, the pair key splits back into
exactly those components. -/
theorem splitPairKey_barFree {a c : String} (ha : '|' ∉ a.data)
    (hc : '|' ∉ c.data) (ha0 : a ≠ "") (hc0 : c ≠ "") :
    splitPairKey (a ++ "|" ++ c) = some (a, c) := by
  have hda : a.data ≠ [] := fun h => ha0 (String.ext h)
  have hdc : c.data ≠ [] := fun h => hc0 (String.ext h)
  rw [splitPairKey, barKey_data, splitBar_barFree_append ha, splitBar_noBar hc]
  simp [hda, hdc]

/-! ## Claim C1: left/right duplicates without pair duplicates -/

/-- The C1 scenario: a lookup whose rows are exactly
`(left=A,right=X)`, `(left=A,right=Y)`, `(left=B,right=X)`. -/
def c1Lookup (A B X Y i1 i2 i3 lid lname : String) : Lookup :=
  ⟨lid, lname, [⟨i1, A, X⟩, ⟨i2, A, Y⟩, ⟨i3, B, X⟩]⟩

theorem c1_warnings_eq (A B X Y i1 i2 i3 lid lname : String)
    (hAB : A ≠ B) (hXY : X ≠ Y)
    (hA : '|' ∉ A.data) (hB : '|' ∉ B.data) :
    lookupWarnings (c1Lookup A B X Y i1 i2 i3 lid lname) =
      [⟨"lookup", lname, lid, i1, true, false, false, .MEDIUM, .side A "left" 2, false⟩,
       ⟨"lookup", lname, lid, i2, true, false, false, .MEDIUM, .side A "left" 2, false⟩,
       ⟨"lookup", lname, lid, i1, false, true, false, .MEDIUM, .side X "right" 2, false⟩,
       ⟨"lookup", lname, lid, i3, false, true, false, .MEDIUM, .side X "right" 2, false⟩] := by
  have hk12 : ¬ (A ++ "|" ++ X = A ++ "|" ++ Y) := fun h => hXY (barKey_cancel_left.1 h)
  have hk13 : ¬ (A ++ "|" ++ X = B ++ "|" ++ X) := fun h => hAB (barKey_cancel_right.1 h)
  have hk23 : ¬ (A ++ "|" ++ Y = B ++ "|" ++ X) := fun h => hAB ((barKey_eq hA hB).1 h).1
  simp [lookupWarnings, c1Lookup, findLeftDuplicates, findRightDuplicates,
    findLeftRightDuplicates, groupByKey, pairKey, insertGroup, coveredByPair,
    hAB, hXY, hk12, hk13, hk23]

/-- C1 (amended): for a Lookup whose rows are exactly (A,X), (A,Y), (B,X)
with A ≠ B and X ≠ Y, and with the left values free of the '|' pair-key
delimiter, one job run computes exactly 4 Warnings of type "lookup":
2 MEDIUM with leftDuplicate=true for the two rows with left=A, 2 MEDIUM
with rightDuplicate=true for the two rows with right=X, 0 HIGH; the row
(A,X) receives exactly two Warnings and the other rows exactly one each. -/
theorem c1_duplicate_breakdown (A B X Y i1 i2 i3 lid lname : String)
    (hAB : A ≠ B) (hXY : X ≠ Y)
    (hA : '|' ∉ A.data) (hB : '|' ∉ B.data)
    (h12 : i1 ≠ i2) (h13 : i1 ≠ i3) (h23 : i2 ≠ i3) :
    (lookupWarnings (c1Lookup A B X Y i1 i2 i3 lid lname)).length = 4
    ∧ (∀ w ∈ lookupWarnings (c1Lookup A B X Y i1 i2 i3 lid lname),
        w.type = "lookup" ∧ w.severity = .MEDIUM)
    ∧ ((lookupWarnings (c1Lookup A B X Y i1 i2 i3 lid lname)).filter
        (fun w => w.leftDuplicate)).map (fun w => w.itemId) = [i1, i2]
    ∧ ((lookupWarnings (c1Lookup A B X Y i1 i2 i3 lid lname)).filter
        (fun w => w.rightDuplicate)).map (fun w => w.itemId) = [i1, i3]
    ∧ (lookupWarnings (c1Lookup A B X Y i1 i2 i3 lid lname)).countP
        (fun w => w.severity == .HIGH) = 0
    ∧ (lookupWarnings (c1Lookup A B X Y i1 i2 i3 lid lname)).countP
        (fun w => w.itemId == i1) = 2
    ∧ (lookupWarnings (c1Lookup A B X Y i1 i2 i3 lid lname)).countP
        (fun w => w.itemId == i2) = 1
    ∧ (lookupWarnings (c1Lookup A B X Y i1 i2 i3 lid lname)).countP
        (fun w => w.itemId == i3) = 1 := by
  rw [c1_warnings_eq A B X Y i1 i2 i3 lid lname hAB hXY hA hB]
  have e21 : (i2 == i1) = false := beq_eq_false_iff_ne.2 (Ne.symm h12)
  have e31 : (i3 == i1) = false := beq_eq_false_iff_ne.2 (Ne.symm h13)
  have e12 : (i1 == i2) = false := beq_eq_false_iff_ne.2 h12
  have e32 : (i3 == i2) = false := beq_eq_false_iff_ne.2 (Ne.symm h23)
  have e13 : (i1 == i3) = false := beq_eq_false_iff_ne.2 h13
  have e23 : (i2 == i3) = false := beq_eq_false_iff_ne.2 h23
  refine ⟨rfl, ?_, by simp, by simp, by simp, ?_, ?_, ?_⟩
  · intro w hw
    simp only [List.mem_cons, List.not_mem_nil, or_false] at hw
    rcases hw with rfl | rfl | rfl | rfl <;> exact ⟨rfl, rfl⟩
  · simp [List.countP_cons, e21, e31]
  · simp [List.countP_cons, e12, e32]
  · simp [List.countP_cons, e13, e23]

/-- C1 as frozen is false on the code at explicit inputs: with rows
(a,x), (a,y), (b,x) the job emits 4 warnings but the row (a,x) receives
2 of them (one left-duplicate, one right-duplicate), so some row receives
more than one Warning; and with rows (a,c), (a,b|c), (a|b,c) — still
pairwise satisfying A ≠ B, X ≠ Y — the composite key collision a|b|c
makes the job emit 2 HIGH warnings instead of 0. -/
theorem c1_counterexample :
    ((lookupWarnings ⟨"L1", "lk", [⟨"1", "a", "x"⟩, ⟨"2", "a", "y"⟩, ⟨"3", "b", "x"⟩]⟩).length = 4
      ∧ (lookupWarnings ⟨"L1", "lk", [⟨"1", "a", "x"⟩, ⟨"2", "a", "y"⟩, ⟨"3", "b", "x"⟩]⟩).countP
          (fun w => w.itemId == "1") = 2)
    ∧ ("a" : String) ≠ "a|b" ∧ ("c" : String) ≠ "b|c"
      ∧ (lookupWarnings ⟨"L1", "lk", [⟨"1", "a", "c"⟩, ⟨"2", "a", "b|c"⟩, ⟨"3", "a|b", "c"⟩]⟩).countP
          (fun w => w.severity == .HIGH) = 2 := by
  decide

/-- Witness for `c1_duplicate_breakdown` at concrete inputs. -/
theorem c1_duplicate_breakdown_witness :
    (lookupWarnings (c1Lookup "a" "b" "x" "y" "1" "2" "3" "L1" "lk")).length = 4
    ∧ (∀ w ∈ lookupWarnings (c1Lookup "a" "b" "x" "y" "1" "2" "3" "L1" "lk"),
        w.type = "lookup" ∧ w.severity = .MEDIUM)
    ∧ ((lookupWarnings (c1Lookup "a" "b" "x" "y" "1" "2" "3" "L1" "lk")).filter
        (fun w => w.leftDuplicate)).map (fun w => w.itemId) = ["1", "2"]
    ∧ ((lookupWarnings (c1Lookup "a" "b" "x" "y" "1" "2" "3" "L1" "lk")).filter
        (fun w => w.rightDuplicate)).map (fun w => w.itemId) = ["1", "3"]
    ∧ (lookupWarnings (c1Lookup "a" "b" "x" "y" "1" "2" "3" "L1" "lk")).countP
        (fun w => w.severity == .HIGH) = 0
    ∧ (lookupWarnings (c1Lookup "a" "b" "x" "y" "1" "2" "3" "L1" "lk")).countP
        (fun w => w.itemId == "1") = 2
    ∧ (lookupWarnings (c1Lookup "a" "b" "x" "y" "1" "2" "3" "L1" "lk")).countP
        (fun w => w.itemId == "2") = 1
    ∧ (lookupWarnings (c1Lookup "a" "b" "x" "y" "1" "2" "3" "L1" "lk")).countP
        (fun w => w.itemId == "3") = 1 :=
  c1_duplicate_breakdown "a" "b" "x" "y" "1" "2" "3" "L1" "lk"
    (by decide) (by decide) (by decide) (by decide) (by decide) (by decide) (by decide)

/-! ## Claim C2: pair duplicates suppress single-side reports -/

/-- The C2 scenario: a lookup whose rows are exactly two copies of
`(left=A,right=X)` plus one `(left=A,right=Z)`. -/
def c2Lookup (A X Z i1 i2 i3 lid lname : String) : Lookup :=
  ⟨lid, lname, [⟨i1, A, X⟩, ⟨i2, A, X⟩, ⟨i3, A, Z⟩]⟩

theorem c2_warnings_eq (A X Z i1 i2 i3 lid lname : String)
    (hXZ : X ≠ Z) (hA : '|' ∉ A.data) (hX : '|' ∉ X.data)
    (hA0 : A ≠ "") (hX0 : X ≠ "")
    (h13 : i1 ≠ i3) (h23 : i2 ≠ i3) :
    lookupWarnings (c2Lookup A X Z i1 i2 i3 lid lname) =
      [⟨"lookup", lname, lid, i3, true, false, false, .MEDIUM, .side A "left" 3, false⟩,
       ⟨"lookup", lname, lid, i1, false, false, true, .HIGH, .pair A X "left-right" 2, false⟩,
       ⟨"lookup", lname, lid, i2, false, false, true, .HIGH, .pair A X "left-right" 2, false⟩] := by
  have hk : ¬ (A ++ "|" ++ X = A ++ "|" ++ Z) := fun h => hXZ (barKey_cancel_left.1 h)
  have hsplit : splitPairKey (A ++ "|" ++ X) = some (A, X) :=
    splitPairKey_barFree hA hX hA0 hX0
  have e13 : (i1 == i3) = false := beq_eq_false_iff_ne.2 h13
  have e23 : (i2 == i3) = false := beq_eq_false_iff_ne.2 h23
  simp [lookupWarnings, c2Lookup, findLeftDuplicates, findRightDuplicates,
    findLeftRightDuplicates, groupByKey, pairKey, insertGroup, coveredByPair,
    hXZ, hk, hsplit, e13, e23, Ne.symm h13, Ne.symm h23, List.contains]

/-- C2 (amended): for a Lookup whose rows are exactly (A,X), (A,X), (A,Z)
with X ≠ Z, provided A and X are non-empty and free of the '|' pair-key
delimiter, one job run emits exactly 2 HIGH Warnings with
leftRightDuplicate=true (one per exact-pair-duplicate row), 0 MEDIUM
Warnings for those two rows, and exactly 1 MEDIUM Warning with
leftDuplicate=true for the (A,Z) row. -/
theorem c2_pair_priority (A X Z i1 i2 i3 lid lname : String)
    (hXZ : X ≠ Z) (hA : '|' ∉ A.data) (hX : '|' ∉ X.data)
    (hA0 : A ≠ "") (hX0 : X ≠ "")
    (h13 : i1 ≠ i3) (h23 : i2 ≠ i3) :
    (lookupWarnings (c2Lookup A X Z i1 i2 i3 lid lname)).length = 3
    ∧ ((lookupWarnings (c2Lookup A X Z i1 i2 i3 lid lname)).filter
        (fun w => w.leftRightDuplicate)).map (fun w => w.itemId) = [i1, i2]
    ∧ ((lookupWarnings (c2Lookup A X Z i1 i2 i3 lid lname)).filter
        (fun w => w.severity == .HIGH)).map (fun w => w.itemId) = [i1, i2]
    ∧ (lookupWarnings (c2Lookup A X Z i1 i2 i3 lid lname)).countP
        (fun w => w.severity == .MEDIUM && (w.itemId == i1 || w.itemId == i2)) = 0
    ∧ ((lookupWarnings (c2Lookup A X Z i1 i2 i3 lid lname)).filter
        (fun w => w.severity == .MEDIUM)).map (fun w => w.itemId) = [i3]
    ∧ ((lookupWarnings (c2Lookup A X Z i1 i2 i3 lid lname)).filter
        (fun w => w.leftDuplicate)).map (fun w => w.itemId) = [i3]
    ∧ ∀ w ∈ lookupWarnings (c2Lookup A X Z i1 i2 i3 lid lname), w.type = "lookup" := by
  rw [c2_warnings_eq A X Z i1 i2 i3 lid lname hXZ hA hX hA0 hX0 h13 h23]
  have e31 : (i3 == i1) = false := beq_eq_false_iff_ne.2 (Ne.symm h13)
  have e32 : (i3 == i2) = false := beq_eq_false_iff_ne.2 (Ne.symm h23)
  refine ⟨rfl, by simp, by simp, ?_, by simp, by simp, ?_⟩
  · simp [List.countP_cons, e31, e32]
  · intro w hw
    simp only [List.mem_cons, List.not_mem_nil, or_false] at hw
    rcases hw with rfl | rfl | rfl <;> rfl

/-- C2 as frozen is false on the code at an explicit input: with rows
(|a,x), (|a,x), (|a,z) the pair key "|a|x" splits back with an empty
first segment, so the pair-duplicate group is dropped and the job emits
0 HIGH warnings and 5 MEDIUM ones instead of 2 HIGH + 1 MEDIUM. -/
theorem c2_counterexample :
    ("x" : String) ≠ "z"
    ∧ (lookupWarnings ⟨"L1", "lk", [⟨"1", "|a", "x"⟩, ⟨"2", "|a", "x"⟩, ⟨"3", "|a", "z"⟩]⟩).countP
        (fun w => w.severity == .HIGH) = 0
    ∧ (lookupWarnings ⟨"L1", "lk", [⟨"1", "|a", "x"⟩, ⟨"2", "|a", "x"⟩, ⟨"3", "|a", "z"⟩]⟩).length
        = 5 := by
  decide

/-- Witness for `c2_pair_priority` at concrete inputs. -/
theorem c2_pair_priority_witness :
    (lookupWarnings (c2Lookup "a" "x" "z" "1" "2" "3" "L1" "lk")).length = 3
    ∧ ((lookupWarnings (c2Lookup "a" "x" "z" "1" "2" "3" "L1" "lk")).filter
        (fun w => w.leftRightDuplicate)).map (fun w => w.itemId) = ["1", "2"]
    ∧ ((lookupWarnings (c2Lookup "a" "x" "z" "1" "2" "3" "L1" "lk")).filter
        (fun w => w.severity == .HIGH)).map (fun w => w.itemId) = ["1", "2"]
    ∧ (lookupWarnings (c2Lookup "a" "x" "z" "1" "2" "3" "L1" "lk")).countP
        (fun w => w.severity == .MEDIUM && (w.itemId == "1" || w.itemId == "2")) = 0
    ∧ ((lookupWarnings (c2Lookup "a" "x" "z" "1" "2" "3" "L1" "lk")).filter
        (fun w => w.severity == .MEDIUM)).map (fun w => w.itemId) = ["3"]
    ∧ ((lookupWarnings (c2Lookup "a" "x" "z" "1" "2" "3" "L1" "lk")).filter
        (fun w => w.leftDuplicate)).map (fun w => w.itemId) = ["3"]
    ∧ ∀ w ∈ lookupWarnings (c2Lookup "a" "x" "z" "1" "2" "3" "L1" "lk"), w.type = "lookup" :=
  c2_pair_priority "a" "x" "z" "1" "2" "3" "L1" "lk"
    (by decide) (by decide) (by decide) (by decide) (by decide)
    (by decide) (by decide)

/-! ## Claims C3 and C4: full replace, idempotence, abort safety -/

theorem lookupWarnings_type (lk : Lookup) :
    ∀ w ∈ lookupWarnings lk, w.type = "lookup" := by
  intro w hw
  simp only [lookupWarnings, List.mem_append, List.mem_flatMap,
    List.mem_filterMap, List.mem_map] at hw
  rcases hw with (⟨d, _, vid, _, heq⟩ | ⟨d, _, vid, _, heq⟩) | ⟨d, _, vid, _, heq⟩
  · split at heq
    · exact absurd heq (by simp)
    · cases heq
      rfl
  · split at heq
    · exact absurd heq (by simp)
    · cases heq
      rfl
  · cases heq
    rfl

theorem computeWarnings_type (lookups : List Lookup) :
    ∀ w ∈ computeWarnings lookups, w.type = "lookup" := by
  intro w hw
  rw [computeWarnings, List.mem_flatMap] at hw
  obtain ⟨lk, _, hw⟩ := hw
  exact lookupWarnings_type lk w hw

theorem checkLookupDuplicates_ok {ε : Type} (lookups : List Lookup)
    (stored : List Warning) :
    checkLookupDuplicates (Except.ok lookups : Except ε (List Lookup)) stored =
      (.ok (), (stored.filter fun w => w.type != "lookup") ++ computeWarnings lookups) :=
  rfl

/-- C3: after a successful job run the stored type="lookup" Warnings are
exactly the computed set, whatever Warnings existed before, and running
the job again on the produced table reproduces it exactly (same count and
content, resolved flags included). -/
theorem c3_full_replace_idempotent {ε : Type} (lookups : List Lookup)
    (stored : List Warning) :
    (checkLookupDuplicates (Except.ok lookups : Except ε (List Lookup)) stored).1 = .ok ()
    ∧ ((checkLookupDuplicates (Except.ok lookups : Except ε (List Lookup)) stored).2.filter
        (fun w => w.type == "lookup")) = computeWarnings lookups
    ∧ (checkLookupDuplicates (Except.ok lookups : Except ε (List Lookup))
        ((checkLookupDuplicates (Except.ok lookups : Except ε (List Lookup)) stored).2)).2
      = (checkLookupDuplicates (Except.ok lookups : Except ε (List Lookup)) stored).2 := by
  have hcomp : ∀ w ∈ computeWarnings lookups, (w.type == "lookup") = true :=
    fun w hw => beq_iff_eq.2 (computeWarnings_type lookups w hw)
  have hkeep : (computeWarnings lookups).filter (fun w => w.type == "lookup")
      = computeWarnings lookups := List.filter_eq_self.2 hcomp
  have hgone : (computeWarnings lookups).filter (fun w => w.type != "lookup") = [] := by
    refine List.filter_eq_nil_iff.2 fun w hw => ?_
    simp [computeWarnings_type lookups w hw]
  have hdrop : ((stored.filter fun w => w.type != "lookup").filter
      fun w => w.type == "lookup") = [] := by
    refine List.filter_eq_nil_iff.2 fun w hw => ?_
    have := (List.mem_filter.1 hw).2
    simp only [bne_iff_ne, ne_eq, decide_not] at this
    simp [bne_iff_ne] at this ⊢
    exact this
  have hstable : ((stored.filter fun w => w.type != "lookup").filter
      fun w => w.type != "lookup") = stored.filter fun w => w.type != "lookup" :=
    List.filter_eq_self.2 fun w hw => (List.mem_filter.1 hw).2
  refine ⟨rfl, ?_, ?_⟩
  · rw [checkLookupDuplicates_ok, List.filter_append, hdrop, hkeep, List.nil_append]
  · rw [checkLookupDuplicates_ok, checkLookupDuplicates_ok,
      List.filter_append, hstable, hgone, List.append_nil]

/-- C4: if loading the Lookup tables throws, the job run terminates with
that error and the stored Warning table is exactly as before the run:
neither the delete of type="lookup" Warnings nor any insert happened. -/
theorem c4_abort_preserves_warnings {ε : Type} (e : ε) (stored : List Warning) :
    checkLookupDuplicates (.error e) stored = (.error e, stored)
    ∧ executeJob (.error e) stored = (.error e, stored) :=
  ⟨rfl, rfl⟩

/-! ## Warning Ledger (WarningController)

The ledger operates on stored Warning rows generically; the fields it
reads and writes are `id`, `type`, `severity`, `isResolved`, `createdAt`,
`resolvedAt`, `resolvedBy`, modelled here with Nat epoch timestamps. -/

/-- A stored Warning row as read by the warning controller. -/
structure WarningRec where
  id : String
  type : String
  severity : WarningSeverity
  isResolved : Bool
  createdAt : Nat
  resolvedAt : Option Nat
  resolvedBy : Option String
deriving DecidableEq, Repr

/-- Sort rank of the severity enum. Modelled from the spec: the Prisma
schema declares the enum in the order LOW, MEDIUM, HIGH, CRITICAL (spec
data model section), which is what `orderBy: {severity: "desc"}` sorts by. -/
def sevRank : WarningSeverity → Nat
  | .LOW => 0
  | .MEDIUM => 1
  | .HIGH => 2
  | .CRITICAL => 3

/-- The raw `listWarnings` query string parameters; `limit` and `offset`
arrive as numeric strings and are modelled already parsed. -/
structure RawListQuery where
  type : Option String
  severity : Option WarningSeverity
  resolved : Option String
  limit : Option Nat
  offset : Option Nat
deriving DecidableEq, Repr

/-- The query after the zod transforms of `listWarnings`. The `resolved`
transform `(val) => val === "true"` runs on the optional value, so an
absent parameter yields `false`, never `undefined`. -/
structure ListParams where
  type : Option String
  severity : Option WarningSeverity
  resolved : Bool
  limit : Nat
  offset : Nat
deriving DecidableEq, Repr

def parseListQuery (q : RawListQuery) : ListParams :=
  { type := q.type, severity := q.severity,
    resolved := q.resolved == some "true",
    limit := q.limit.getD 50,
    offset := q.offset.getD 0 }

/-- The `whereClause` of `listWarnings`: `if (type) ...`, `if (severity)
...`, and — since the transformed `resolved` is always a boolean —
`whereClause.isResolved = resolved` is always set. -/
def listWhere (p : ListParams) (w : WarningRec) : Bool :=
  (match p.type with
   | none => true
   | some t => if t = "" then true else w.type == t)
  && (match p.severity with
      | none => true
      | some s => w.severity == s)
  && (w.isResolved == p.resolved)

/-- The claim's reading of the filter combination: each of the three
optional filters matches everything when absent. Stated from the claim's
words, to be compared with the code's `listWhere`. -/
def claimWhere (type : Option String) (sev : Option WarningSeverity)
    (resolved : Option Bool) (w : WarningRec) : Bool :=
  (match type with
   | none => true
   | some t => w.type == t)
  && (match sev with
      | none => true
      | some s => w.severity == s)
  && (match resolved with
      | none => true
      | some b => w.isResolved == b)

/-- `if w.isResolved then 1 else 0`: `orderBy: {isResolved: "asc"}`. -/
def resolvedBit (w : WarningRec) : Nat := if w.isResolved then 1 else 0

/-- The `orderBy` of `listWarnings`: unresolved first, then severity
descending, then `createdAt` descending. -/
def warnBefore (a b : WarningRec) : Prop :=
  resolvedBit a < resolvedBit b
  ∨ (resolvedBit a = resolvedBit b
      ∧ (sevRank b.severity < sevRank a.severity
          ∨ (sevRank a.severity = sevRank b.severity ∧ b.createdAt ≤ a.createdAt)))

instance : DecidableRel warnBefore := fun a b => by
  unfold warnBefore
  infer_instance

instance : IsTotal WarningRec warnBefore := ⟨by
  intro a b
  unfold warnBefore
  omega⟩

instance : IsTrans WarningRec warnBefore := ⟨by
  intro a b c hab hbc
  unfold warnBefore at hab hbc ⊢
  omega⟩

/-- `WarningController.listWarnings`: filter, order, then
`take: Math.min(limit, 100), skip: offset`, alongside the matching count. -/
def listWarnings (db : List WarningRec) (q : RawListQuery) :
    List WarningRec × Nat :=
  let p := parseListQuery q
  let matching := db.filter (listWhere p)
  (((matching.insertionSort warnBefore).drop p.offset).take (min p.limit 100),
   matching.length)

/-- Outcome of `WarningController.resolveWarning`. -/
inductive ResolveOutcome
  | notFound
  | alreadyResolved
  | resolved (w : WarningRec)
deriving DecidableEq, Repr

/-- The update payload of `resolveWarning`: `isResolved: true, resolvedAt:
new Date(), resolvedBy: req.user?.id || null` applied to a row. -/
def resolvedCopy (w : WarningRec) (now : Nat) (userId : Option String) : WarningRec :=
  { w with isResolved := true, resolvedAt := some now, resolvedBy := userId }

/-- `WarningController.resolveWarning`: 404 when the id is absent, 400
when already resolved, otherwise update `isResolved`, `resolvedAt`,
`resolvedBy` (`req.user?.id || null`). -/
def resolveWarning (db : List WarningRec) (wid : String) (now : Nat)
    (userId : Option String) : ResolveOutcome × List WarningRec :=
  match db.find? (fun w => w.id == wid) with
  | none => (.notFound, db)
  | some w =>
    if w.isResolved then (.alreadyResolved, db)
    else
      (.resolved (resolvedCopy w now userId),
       db.map fun x => if x.id == wid then resolvedCopy w now userId else x)

/-! ## Claim C7: warning listing -/

/-- C7 (amended): the Warning list operation filters by type?, severity?
and by `isResolved = resolved` where the resolved parameter defaults to
false when omitted (it is always applied), orders unresolved before
resolved, then severity highest-to-lowest, then newest first, returns at
most min(limit, 100) records after skipping offset (default limit 50,
default offset 0), together with the total count of warnings matching
that same filter. -/
theorem c7_list_warnings (db : List WarningRec) (q : RawListQuery) :
    (listWarnings db q).1 =
      (((db.filter (listWhere (parseListQuery q))).insertionSort warnBefore).drop
        (parseListQuery q).offset).take (min (parseListQuery q).limit 100)
    ∧ List.Sorted warnBefore (listWarnings db q).1
    ∧ (listWarnings db q).1.length ≤ min (parseListQuery q).limit 100
    ∧ (∀ w ∈ (listWarnings db q).1, listWhere (parseListQuery q) w = true)
    ∧ (listWarnings db q).2 = db.countP (listWhere (parseListQuery q))
    ∧ parseListQuery ⟨none, none, none, none, none⟩ = ⟨none, none, false, 50, 0⟩ := by
  have hsub : ((((db.filter (listWhere (parseListQuery q))).insertionSort
      warnBefore).drop (parseListQuery q).offset).take
        (min (parseListQuery q).limit 100)).Sublist
      ((db.filter (listWhere (parseListQuery q))).insertionSort warnBefore) :=
    (List.take_sublist _ _).trans (List.drop_sublist _ _)
  refine ⟨rfl, ?_, List.length_take_le _ _, ?_, ?_, rfl⟩
  · exact List.Pairwise.sublist hsub
      (List.sorted_insertionSort warnBefore _)
  · intro w hw
    have hmem : w ∈ (db.filter (listWhere (parseListQuery q))).insertionSort warnBefore :=
      hsub.subset hw
    have : w ∈ db.filter (listWhere (parseListQuery q)) :=
      (List.perm_insertionSort warnBefore _).subset hmem
    exact (List.mem_filter.1 this).2
  · exact (List.countP_eq_length_filter _ _).symm

/-- A resolved warning on file while the request omits the resolved
parameter. -/
def c7Resolved : WarningRec := ⟨"w1", "lookup", .HIGH, true, 0, some 5, some "u"⟩

/-- C7 as frozen is false on the code at an explicit input: with one
resolved warning stored and a query providing no filters at all, the
claim's filter combination matches the warning, yet the code returns an
empty page and total 0, because the transformed resolved parameter
defaults to false and is always applied. -/
theorem c7_counterexample :
    (listWarnings [c7Resolved] ⟨none, none, none, none, none⟩).1 = []
    ∧ (listWarnings [c7Resolved] ⟨none, none, none, none, none⟩).2 = 0
    ∧ [c7Resolved].countP (claimWhere none none none) = 1 := by
  decide

/-! ## Claim C8: resolving a warning -/

theorem find_id_unique {db : List WarningRec} {w : WarningRec} {wid : String}
    (hnodup : (db.map fun x => x.id).Nodup) (hw : w ∈ db) (hid : w.id = wid) :
    db.find? (fun x => x.id == wid) = some w := by
  induction db with
  | nil => cases hw
  | cons a rest ih =>
    rw [List.map_cons, List.nodup_cons] at hnodup
    rcases List.mem_cons.1 hw with rfl | hmem
    · exact List.find?_cons_of_pos _ (beq_iff_eq.2 hid)
    · have haid : ¬ ((a.id == wid) = true) := by
        intro h
        refine hnodup.1 ?_
        rw [beq_iff_eq.1 h, ← hid]
        exact List.mem_map.2 ⟨w, hmem, rfl⟩
      rw [@List.find?_cons_of_neg WarningRec (fun x => x.id == wid) a rest haid]
      exact ih hnodup.2 hmem

/-- C8: resolve fails with NotFound when no Warning has the id, fails
with AlreadyResolved when it is already resolved (leaving the table
unchanged), and otherwise returns the Warning updated with
isResolved=true, resolvedAt set to the current time and resolvedBy
recorded, updating exactly that row in the table. -/
theorem c8_resolve_warning (db : List WarningRec) (wid : String) (now : Nat)
    (userId : Option String) (hnodup : (db.map fun x => x.id).Nodup) :
    ((∀ x ∈ db, x.id ≠ wid) → resolveWarning db wid now userId = (.notFound, db))
    ∧ (∀ w ∈ db, w.id = wid → w.isResolved = true →
        resolveWarning db wid now userId = (.alreadyResolved, db))
    ∧ (∀ w ∈ db, w.id = wid → w.isResolved = false →
        resolveWarning db wid now userId =
          (.resolved (resolvedCopy w now userId),
           db.map fun x => if x.id == wid then resolvedCopy w now userId else x)) := by
  refine ⟨?_, ?_, ?_⟩
  · intro habs
    have : db.find? (fun x => x.id == wid) = none :=
      List.find?_eq_none.2 fun x hx => by simp [habs x hx]
    rw [resolveWarning, this]
  · intro w hw hid hres
    rw [resolveWarning, find_id_unique hnodup hw hid]
    simp [hres]
  · intro w hw hid hres
    rw [resolveWarning, find_id_unique hnodup hw hid]
    simp [hres]

/-- The two-row warning table used to witness `c8_resolve_warning`. -/
def c8w1 : WarningRec := ⟨"a1", "lookup", .MEDIUM, false, 10, none, none⟩

/-- The resolved row of the witness table. -/
def c8w2 : WarningRec := ⟨"a2", "lookup", .HIGH, true, 20, some 30, some "ops"⟩

/-- Witness for `c8_resolve_warning`: an absent id, an already-resolved
id and an unresolved id on a concrete two-row table. -/
theorem c8_resolve_warning_witness :
    resolveWarning [c8w1, c8w2] "zz" 99 (some "me") = (.notFound, [c8w1, c8w2])
    ∧ resolveWarning [c8w1, c8w2] "a2" 99 (some "me") = (.alreadyResolved, [c8w1, c8w2])
    ∧ resolveWarning [c8w1, c8w2] "a1" 99 (some "me") =
        (.resolved ⟨"a1", "lookup", .MEDIUM, true, 10, some 99, some "me"⟩,
         [⟨"a1", "lookup", .MEDIUM, true, 10, some 99, some "me"⟩, c8w2]) := by
  refine ⟨(c8_resolve_warning [c8w1, c8w2] "zz" 99 (some "me") (by decide)).1
      (by decide),
    (c8_resolve_warning [c8w1, c8w2] "a2" 99 (some "me") (by decide)).2.1 c8w2
      (by decide) rfl rfl, ?_⟩
  rw [(c8_resolve_warning [c8w1, c8w2] "a1" 99 (some "me") (by decide)).2.2 c8w1
    (by decide) rfl rfl]
  decide

/-! ## Batched bulk processing

The bulk endpoints iterate `for (let i = 0; i < values.length; i += 100)`
over slices and `for (let j = 0; j < batch.length; j++)` within a slice,
addressing each item by its global index `i + j`. The slicing and the
two-level indexed loop are shared by the set/lookup bulk operations and
are factored here over an arbitrary per-item step. -/

/-- `values.slice(i, i + n)` chunks for a fixed batch size `n`. -/
def chunksOf {α : Type} (n : Nat) : List α → List (List α)
  | [] => []
  | x :: xs => (x :: xs.take (n - 1)) :: chunksOf n (xs.drop (n - 1))
termination_by l => l.length
decreasing_by simp only [List.length_drop, List.length_cons]; omega

theorem chunksOf_flatten {α : Type} (n : Nat) :
    ∀ l : List α, (chunksOf n l).flatten = l
  | [] => by simp [chunksOf]
  | x :: xs => by
    simp only [chunksOf]
    rw [List.flatten_cons, chunksOf_flatten n (xs.drop (n - 1)),
      List.cons_append, List.take_append_drop]
termination_by l => l.length
decreasing_by simp only [List.length_drop, List.length_cons]; omega

/-- The inner `for (j …)` loop: run `step` on each item with its global
index, threading the accumulated result. -/
def runItemsFrom {α σ : Type} (step : Nat → α → σ → σ) : Nat → List α → σ → σ
  | _, [], st => st
  | start, x :: xs, st => runItemsFrom step (start + 1) xs (step start x st)

/-- The outer `for (i …)` loop over batches, advancing the global base
index by each batch length. -/
def runChunksFrom {α σ : Type} (step : Nat → α → σ → σ) :
    Nat → List (List α) → σ → σ
  | _, [], st => st
  | base, b :: bs, st =>
    runChunksFrom step (base + b.length) bs (runItemsFrom step base b st)

/-- The complete double loop with batch size 100. -/
def runBulk {α σ : Type} (step : Nat → α → σ → σ) (init : σ)
    (values : List α) : σ :=
  runChunksFrom step 0 (chunksOf 100 values) init

theorem runItemsFrom_append {α σ : Type} (step : Nat → α → σ → σ) :
    ∀ (a b : List α) (start : Nat) (st : σ),
      runItemsFrom step start (a ++ b) st
        = runItemsFrom step (start + a.length) b (runItemsFrom step start a st) := by
  intro a
  induction a with
  | nil =>
    intro b start st
    simp [runItemsFrom]
  | cons x xs ih =>
    intro b start st
    rw [List.cons_append]
    simp only [runItemsFrom, List.length_cons]
    rw [ih b (start + 1) (step start x st)]
    have h : start + 1 + xs.length = start + (xs.length + 1) := by omega
    rw [h]

theorem runChunksFrom_flatten {α σ : Type} (step : Nat → α → σ → σ) :
    ∀ (chunks : List (List α)) (base : Nat) (st : σ),
      runChunksFrom step base chunks st = runItemsFrom step base chunks.flatten st := by
  intro chunks
  induction chunks with
  | nil =>
    intro base st
    rw [runChunksFrom, List.flatten_nil, runItemsFrom]
  | cons b bs ih =>
    intro base st
    rw [List.flatten_cons, runItemsFrom_append step b bs.flatten base st,
      runChunksFrom, ih]

/-- The batched double loop visits each item exactly once, in order, at
its global index: it equals the flat single loop. -/
theorem runBulk_eq {α σ : Type} (step : Nat → α → σ → σ) (init : σ)
    (values : List α) : runBulk step init values = runItemsFrom step 0 values init := by
  rw [runBulk, runChunksFrom_flatten, chunksOf_flatten]

/-! ## Set Engine (SetController)

`metadata` is an opaque JSON payload and is modelled as its serialized
text. The store is a list of Set rows plus a list of SetValue rows. -/

/-- A Set row; the value operations read only `id` and `name`. -/
structure SetRec where
  id : String
  name : String
deriving DecidableEq, Repr

/-- A SetValue row. -/
structure SetValue where
  id : String
  setId : String
  value : String
  metadata : Option String
deriving DecidableEq, Repr

/-- The store as seen by the set controller. -/
structure SetsDB where
  sets : List SetRec
  setValues : List SetValue
deriving DecidableEq, Repr

/-- `prisma.set.findUnique({where: {name}})`; set names are unique. -/
def findSet (db : SetsDB) (name : String) : Option SetRec :=
  db.sets.find? fun st => st.name == name

/-- The `deleteMany` where-clause of `removeSetValue`:
`OR: [{id: valueId}, {setId, value: valueId}]`. The id disjunct is not
restricted to the addressed set. -/
def removeMatches (sid : String) (key : String) (v : SetValue) : Bool :=
  v.id == key || (v.setId == sid && v.value == key)

/-- Outcome of `SetController.removeSetValue`. -/
inductive RemoveOutcome
  | setNotFound
  | valueNotFound
  | removed
deriving DecidableEq, Repr

/-- `SetController.removeSetValue`: find the set by name, delete every
SetValue matching the key by id or by (setId, value), and report 404 when
the delete count is zero. -/
def removeSetValue (db : SetsDB) (setName key : String) :
    RemoveOutcome × SetsDB :=
  match findSet db setName with
  | none => (.setNotFound, db)
  | some s =>
    if db.setValues.countP (removeMatches s.id key) == 0 then
      (.valueNotFound, db)
    else
      (.removed,
       { db with setValues := db.setValues.filter fun v => !(removeMatches s.id key v) })

/-- `SetController.checkSetValue`: `findFirst({where: {setId, value}})`;
`none` models the 404 for a missing set, otherwise
`{exists: !!setValue, value: setValue}`. -/
def checkSetValue (db : SetsDB) (setName value : String) :
    Option (Bool × Option SetValue) :=
  match findSet db setName with
  | none => none
  | some s =>
    let sv := db.setValues.find? fun v => v.setId == s.id && v.value == value
    some (sv.isSome, sv)

/-! ## Set bulk operations (SetController.addSetValuesBulk) -/

/-- One element of the `values` body of `addSetValuesBulk`. -/
structure SetValueInput where
  value : String
  metadata : Option String
deriving DecidableEq, Repr

/-- The accumulated result `{created, errors, values}`; error entries are
`{index, error}` pairs. -/
structure BulkAddResult where
  created : Nat
  errors : List (Nat × String)
  values : List SetValue
deriving DecidableEq, Repr

/-- `addSetValueSchema`: value a string of length 1..255. -/
def validSetValueItem (v : SetValueInput) : Bool :=
  1 ≤ v.value.length && v.value.length ≤ 255

/-- `addSetValuesBulkSchema`: 1..1000 valid items. -/
def validSetValuesBulk (values : List SetValueInput) : Bool :=
  1 ≤ values.length && values.length ≤ 1000 && values.all validSetValueItem

/-- The per-item body of the bulk-add loop: `prisma.setValue.create` may
succeed (the store assigns the fresh row id returned by `oracle`) or
throw (the error message returned by `oracle`); a failure is recorded
under the item's global index and processing continues. -/
def addStep (s : SetRec) (oracle : Nat → SetValueInput → Except String String)
    (idx : Nat) (v : SetValueInput) (acc : BulkAddResult) : BulkAddResult :=
  match oracle idx v with
  | .ok newId =>
    { acc with
        created := acc.created + 1
        values := acc.values ++ [⟨newId, s.id, v.value, v.metadata⟩] }
  | .error msg => { acc with errors := acc.errors ++ [(idx, msg)] }

/-- The batched processing loop of `addSetValuesBulk`. -/
def addSetValuesBulkCore (s : SetRec)
    (oracle : Nat → SetValueInput → Except String String)
    (values : List SetValueInput) : BulkAddResult :=
  runBulk (addStep s oracle) ⟨0, [], []⟩ values

/-- Response of `addSetValuesBulk`. -/
inductive BulkAddResponse
  | validationError
  | setNotFound
  | ok (r : BulkAddResult)
deriving DecidableEq, Repr

/-- `SetController.addSetValuesBulk`: body validation first, then the
set existence check, then batched per-item creates; created rows are
committed to the store. -/
def addSetValuesBulk (oracle : Nat → SetValueInput → Except String String)
    (db : SetsDB) (setName : String) (values : List SetValueInput) :
    BulkAddResponse × SetsDB :=
  if !validSetValuesBulk values then (.validationError, db)
  else
    match findSet db setName with
    | none => (.setNotFound, db)
    | some s =>
      let r := addSetValuesBulkCore s oracle values
      (.ok r, { db with setValues := db.setValues ++ r.values })

/-- The successfully created rows of a flat left-to-right pass starting
at a given global index. -/
def succList (s : SetRec) (oracle : Nat → SetValueInput → Except String String)
    (start : Nat) : List SetValueInput → List SetValue
  | [] => []
  | v :: rest =>
    match oracle start v with
    | .ok newId => ⟨newId, s.id, v.value, v.metadata⟩ :: succList s oracle (start + 1) rest
    | .error _ => succList s oracle (start + 1) rest

/-- The `{index, error}` entries of a flat left-to-right pass starting at
a given global index. -/
def errList (oracle : Nat → SetValueInput → Except String String)
    (start : Nat) : List SetValueInput → List (Nat × String)
  | [] => []
  | v :: rest =>
    match oracle start v with
    | .ok _ => errList oracle (start + 1) rest
    | .error msg => (start, msg) :: errList oracle (start + 1) rest

theorem runItemsFrom_addStep (s : SetRec)
    (oracle : Nat → SetValueInput → Except String String) :
    ∀ (values : List SetValueInput) (start : Nat) (acc : BulkAddResult),
      runItemsFrom (addStep s oracle) start values acc =
        ⟨acc.created + (succList s oracle start values).length,
         acc.errors ++ errList oracle start values,
         acc.values ++ succList s oracle start values⟩ := by
  intro values
  induction values with
  | nil =>
    intro start acc
    simp [runItemsFrom, succList, errList]
  | cons v rest ih =>
    intro start acc
    cases h : oracle start v with
    | ok newId =>
      simp only [runItemsFrom, addStep, succList, errList, h]
      rw [ih (start + 1)]
      simp only [List.length_cons, List.append_assoc, List.singleton_append]
      congr 1
      omega
    | error msg =>
      simp only [runItemsFrom, addStep, succList, errList, h]
      rw [ih (start + 1)]
      simp [List.append_assoc]

theorem succ_err_length (s : SetRec)
    (oracle : Nat → SetValueInput → Except String String) :
    ∀ (values : List SetValueInput) (start : Nat),
      (succList s oracle start values).length
        + (errList oracle start values).length = values.length := by
  intro values
  induction values with
  | nil =>
    intro start
    simp [succList, errList]
  | cons v rest ih =>
    intro start
    cases h : oracle start v with
    | ok newId =>
      have hrec := ih (start + 1)
      simp only [succList, errList, h, List.length_cons]
      omega
    | error msg =>
      have hrec := ih (start + 1)
      simp only [succList, errList, h, List.length_cons]
      omega

/-! ## Claim C5: removeValue / checkValue -/

/-- C5 (amended): for every existing Set and every key, removal succeeds
exactly when some SetValue matches the key by id or by (set, value);
when nothing matches the outcome is NotFound and the store is unchanged;
removal deletes every matching record and leaves every other SetValue
record (the Set rows included) unchanged, for every key; and after
removing by id a value that no other record of the set shares,
checkValue reports exists=false. -/
theorem c5_remove_value (db : SetsDB) (setName : String) (s : SetRec)
    (hs : findSet db setName = some s) :
    (∀ key, ((removeSetValue db setName key).1 = .removed ↔
        ∃ v2 ∈ db.setValues, removeMatches s.id key v2 = true))
    ∧ (∀ key, (∀ v2 ∈ db.setValues, removeMatches s.id key v2 = false) →
        removeSetValue db setName key = (.valueNotFound, db))
    ∧ (∀ key, (removeSetValue db setName key).2.sets = db.sets)
    ∧ (∀ key, (removeSetValue db setName key).2.setValues
        = db.setValues.filter (fun v2 => !(removeMatches s.id key v2)))
    ∧ (∀ key v, v ∈ db.setValues → v.id = key → v.setId = s.id →
        (∀ v2 ∈ db.setValues, v2.setId = s.id → v2.value = v.value → v2 = v) →
        (removeSetValue db setName key).1 = .removed
        ∧ checkSetValue (removeSetValue db setName key).2 setName v.value
            = some (false, none)) := by
  have hnomatch : ∀ key, db.setValues.countP (removeMatches s.id key) = 0 →
      db.setValues.filter (fun v2 => !(removeMatches s.id key v2)) = db.setValues :=
    fun key h0 => List.filter_eq_self.2 fun v2 hv2 => by
      simp [List.countP_eq_zero.1 h0 v2 hv2]
  refine ⟨?_, ?_, ?_, ?_, ?_⟩
  · intro key
    rw [removeSetValue, hs]
    by_cases h0 : db.setValues.countP (removeMatches s.id key) = 0
    · simp only [h0]
      constructor
      · intro habs
        exact absurd habs (by simp)
      · rintro ⟨v2, hv2, hm2⟩
        exact absurd hm2 (by simp [List.countP_eq_zero.1 h0 v2 hv2])
    · simp only [h0]
      constructor
      · intro _
        obtain ⟨v2, hv2, hm2⟩ := List.countP_pos_iff.1 (Nat.pos_of_ne_zero h0)
        exact ⟨v2, hv2, hm2⟩
      · intro _
        simp [h0]
  · intro key hnone
    have h0 : db.setValues.countP (removeMatches s.id key) = 0 :=
      List.countP_eq_zero.2 fun v2 hv2 => by simp [hnone v2 hv2]
    rw [removeSetValue, hs]
    simp [h0]
  · intro key
    rw [removeSetValue, hs]
    by_cases h0 : db.setValues.countP (removeMatches s.id key) = 0 <;> simp [h0]
  · intro key
    rw [removeSetValue, hs]
    by_cases h0 : db.setValues.countP (removeMatches s.id key) = 0
    · simp only [h0]
      exact (hnomatch key h0).symm
    · simp [h0]
  · intro key v hv hvid _hvset huniq
    have hmatch : removeMatches s.id key v = true := by
      simp [removeMatches, hvid]
    have hpos : db.setValues.countP (removeMatches s.id key) ≠ 0 := by
      intro h0
      have := List.countP_eq_zero.1 h0 v hv
      exact this hmatch
    have hbranch : removeSetValue db setName key =
        (.removed,
         { db with setValues := db.setValues.filter fun v2 => !(removeMatches s.id key v2) }) := by
      rw [removeSetValue, hs]
      simp [hpos]
    refine ⟨by rw [hbranch], ?_⟩
    rw [hbranch, checkSetValue]
    have hs2 : findSet
        { db with setValues := db.setValues.filter fun v2 => !(removeMatches s.id key v2) }
          setName = some s := hs
    rw [hs2]
    have hfind : (db.setValues.filter fun v2 => !(removeMatches s.id key v2)).find?
        (fun v2 => v2.setId == s.id && v2.value == v.value) = none := by
      refine List.find?_eq_none.2 fun x hx => ?_
      obtain ⟨hxmem, hxkeep⟩ := List.mem_filter.1 hx
      intro hpred
      obtain ⟨hxset, hxval⟩ := Bool.and_eq_true_iff.1 hpred
      have hxv : x = v :=
        huniq x hxmem (beq_iff_eq.1 hxset) (beq_iff_eq.1 hxval)
      rw [hxv, hmatch] at hxkeep
      exact absurd hxkeep (by simp)
    simp [hfind]

/-- The duplicate-valued set used to refute C5 as frozen. -/
def c5Db : SetsDB := ⟨[⟨"s1", "s"⟩], [⟨"1", "s1", "v", none⟩, ⟨"2", "s1", "v", none⟩]⟩

/-- C5 as frozen is false on the code at an explicit input: the set
contains two records with value "v"; removing one of them by id succeeds
but checkValue still reports exists=true for "v". -/
theorem c5_counterexample :
    (removeSetValue c5Db "s" "1").1 = .removed
    ∧ checkSetValue (removeSetValue c5Db "s" "1").2 "s" "v"
        = some (true, some ⟨"2", "s1", "v", none⟩) := by
  decide

/-- The unique-valued set used to witness `c5_remove_value`. -/
def c5WDb : SetsDB := ⟨[⟨"s1", "s"⟩], [⟨"1", "s1", "v", none⟩, ⟨"2", "s1", "w", none⟩]⟩

/-- Witness for `c5_remove_value` at concrete inputs. -/
theorem c5_remove_value_witness :
    ((∀ key, ((removeSetValue c5WDb "s" key).1 = .removed ↔
        ∃ v2 ∈ c5WDb.setValues, removeMatches "s1" key v2 = true))
    ∧ (∀ key, (∀ v2 ∈ c5WDb.setValues, removeMatches "s1" key v2 = false) →
        removeSetValue c5WDb "s" key = (.valueNotFound, c5WDb))
    ∧ (∀ key, (removeSetValue c5WDb "s" key).2.sets = c5WDb.sets)
    ∧ (∀ key, (removeSetValue c5WDb "s" key).2.setValues
        = c5WDb.setValues.filter (fun v2 => !(removeMatches "s1" key v2)))
    ∧ (∀ key v, v ∈ c5WDb.setValues → v.id = key → v.setId = "s1" →
        (∀ v2 ∈ c5WDb.setValues, v2.setId = "s1" → v2.value = v.value → v2 = v) →
        (removeSetValue c5WDb "s" key).1 = .removed
        ∧ checkSetValue (removeSetValue c5WDb "s" key).2 "s" v.value
            = some (false, none)))
    ∧ removeSetValue c5WDb "s" "zz" = (.valueNotFound, c5WDb)
    ∧ (removeSetValue c5WDb "s" "1").1 = .removed
    ∧ checkSetValue (removeSetValue c5WDb "s" "1").2 "s" "v" = some (false, none) :=
  ⟨c5_remove_value c5WDb "s" ⟨"s1", "s"⟩ rfl, by decide, by decide, by decide⟩

/-! ## Claim C6: bulk add with partial failure -/

/-- C6: for an existing Set and a validated input list, the batched bulk
add (fixed batch size 100) records each failing item as one {index,
error} entry without aborting the rest, commits exactly the successfully
created records, and created + errors.length equals the input length. -/
theorem c6_add_values_bulk (oracle : Nat → SetValueInput → Except String String)
    (db : SetsDB) (setName : String) (values : List SetValueInput) (s : SetRec)
    (hv : validSetValuesBulk values = true) (hs : findSet db setName = some s) :
    addSetValuesBulk oracle db setName values =
      (.ok ⟨(succList s oracle 0 values).length, errList oracle 0 values,
            succList s oracle 0 values⟩,
       { db with setValues := db.setValues ++ succList s oracle 0 values })
    ∧ (succList s oracle 0 values).length + (errList oracle 0 values).length
        = values.length := by
  have hcore : addSetValuesBulkCore s oracle values =
      ⟨(succList s oracle 0 values).length, errList oracle 0 values,
       succList s oracle 0 values⟩ := by
    rw [addSetValuesBulkCore, runBulk_eq, runItemsFrom_addStep]
    simp
  refine ⟨?_, succ_err_length s oracle values 0⟩
  rw [addSetValuesBulk, hv]
  simp only [Bool.not_true, Bool.false_eq_true, if_false]
  rw [hs]
  simp [hcore]

/-- The per-index store behaviour used to witness `c6_add_values_bulk`:
the item at global index 1 fails, the rest succeed. -/
def c6Oracle : Nat → SetValueInput → Except String String :=
  fun i _ => if i = 1 then .error "boom" else .ok ("id" ++ toString i)

/-- The store used to witness `c6_add_values_bulk`. -/
def c6Db : SetsDB := ⟨[⟨"s1", "s"⟩], []⟩

/-- The input list used to witness `c6_add_values_bulk`. -/
def c6Values : List SetValueInput := [⟨"a", none⟩, ⟨"b", none⟩, ⟨"c", none⟩]

/-- Witness for `c6_add_values_bulk` at concrete inputs, with the flat
pass evaluated explicitly. -/
theorem c6_add_values_bulk_witness :
    (addSetValuesBulk c6Oracle c6Db "s" c6Values =
      (.ok ⟨(succList ⟨"s1", "s"⟩ c6Oracle 0 c6Values).length,
            errList c6Oracle 0 c6Values, succList ⟨"s1", "s"⟩ c6Oracle 0 c6Values⟩,
       { c6Db with setValues := c6Db.setValues ++ succList ⟨"s1", "s"⟩ c6Oracle 0 c6Values })
    ∧ (succList ⟨"s1", "s"⟩ c6Oracle 0 c6Values).length
        + (errList c6Oracle 0 c6Values).length = c6Values.length)
    ∧ errList c6Oracle 0 c6Values = [(1, "boom")]
    ∧ succList ⟨"s1", "s"⟩ c6Oracle 0 c6Values =
        [⟨"id0", "s1", "a", none⟩, ⟨"id2", "s1", "c", none⟩] :=
  ⟨c6_add_values_bulk c6Oracle c6Db "s" c6Values ⟨"s1", "s"⟩ (by decide) rfl,
   by decide, by decide⟩

/-! ## Set bulk check (SetController.checkSetValuesBulk) -/

/-- The accumulated result `{found, notFound, errors, checks}` of the
bulk existence check; a check entry is `(value, exists, setValue?)`. -/
structure CheckBulkResult where
  found : Nat
  notFound : Nat
  errors : List (Nat × String)
  checks : List (String × Bool × Option SetValue)
deriving DecidableEq, Repr

/-- `checkSetValuesBulkSchema` item: a string of length 1..255. -/
def validCheckValueItem (v : String) : Bool :=
  1 ≤ v.length && v.length ≤ 255

/-- `checkSetValuesBulkSchema`: 1..1000 valid items. -/
def validCheckValuesBulk (values : List String) : Bool :=
  1 ≤ values.length && values.length ≤ 1000 && values.all validCheckValueItem

/-- The per-item body of the bulk-check loop: `findFirst({setId, value})`
and count found / notFound. -/
def checkStep (db : SetsDB) (s : SetRec) (_idx : Nat) (value : String)
    (acc : CheckBulkResult) : CheckBulkResult :=
  match db.setValues.find? (fun v => v.setId == s.id && v.value == value) with
  | some fv =>
    { acc with
        found := acc.found + 1
        checks := acc.checks ++ [(value, true, some fv)] }
  | none =>
    { acc with
        notFound := acc.notFound + 1
        checks := acc.checks ++ [(value, false, none)] }

/-- Response of `checkSetValuesBulk`. -/
inductive CheckBulkResponse
  | validationError
  | setNotFound
  | ok (r : CheckBulkResult)
deriving DecidableEq, Repr

/-- `SetController.checkSetValuesBulk`: body validation first, then the
set existence check, then the batched read-only checks. -/
def checkSetValuesBulk (db : SetsDB) (setName : String) (values : List String) :
    CheckBulkResponse × SetsDB :=
  if !validCheckValuesBulk values then (.validationError, db)
  else
    match findSet db setName with
    | none => (.setNotFound, db)
    | some s => (.ok (runBulk (checkStep db s) ⟨0, 0, [], []⟩ values), db)

/-! ## Lookup Engine (LookupController) -/

/-- A Lookup row; the value operations read only `id` and `name`. -/
structure LookupRec where
  id : String
  name : String
deriving DecidableEq, Repr

/-- A LookupValue row as stored, with `createdAt` as a Nat timestamp and
metadata as opaque serialized JSON. -/
structure LookupValueRow where
  id : String
  lookupId : String
  left : String
  right : String
  leftMetadata : Option String
  rightMetadata : Option String
  createdAt : Nat
deriving DecidableEq, Repr

/-- The store as seen by the lookup controller. -/
structure LookupsDB where
  lookups : List LookupRec
  lookupValues : List LookupValueRow
deriving DecidableEq, Repr

/-- `prisma.lookup.findUnique({where: {name}})`; lookup names are unique. -/
def findLookup (db : LookupsDB) (name : String) : Option LookupRec :=
  db.lookups.find? fun lk => lk.name == name

/-- One element of the `values` body of `addLookupValuesBulk`. -/
structure LookupValueInput where
  left : String
  right : String
  leftMetadata : Option String
  rightMetadata : Option String
deriving DecidableEq, Repr

/-- `addLookupValueSchema`: left and right strings of length 1..255. -/
def validLookupValueItem (v : LookupValueInput) : Bool :=
  1 ≤ v.left.length && v.left.length ≤ 255
    && (1 ≤ v.right.length && v.right.length ≤ 255)

/-- `addLookupValuesBulkSchema`: 1..1000 valid items. -/
def validLookupValuesBulk (values : List LookupValueInput) : Bool :=
  1 ≤ values.length && values.length ≤ 1000 && values.all validLookupValueItem

/-- The accumulated result of `addLookupValuesBulk`; `updated` and
`skipped` are never incremented by the source. -/
structure LookupBulkResult where
  created : Nat
  updated : Nat
  skipped : Nat
  errors : List (Nat × String)
  values : List LookupValueRow
deriving DecidableEq, Repr

/-- The per-item body of the lookup bulk-add loop; on success the store
assigns the fresh row id and createdAt returned by `oracle`. -/
def lookupAddStep (lk : LookupRec)
    (oracle : Nat → LookupValueInput → Except String (String × Nat))
    (idx : Nat) (v : LookupValueInput) (acc : LookupBulkResult) : LookupBulkResult :=
  match oracle idx v with
  | .ok (newId, ts) =>
    { acc with
        created := acc.created + 1
        values := acc.values ++
          [⟨newId, lk.id, v.left, v.right, v.leftMetadata, v.rightMetadata, ts⟩] }
  | .error msg => { acc with errors := acc.errors ++ [(idx, msg)] }

/-- Response of `addLookupValuesBulk`. -/
inductive LookupBulkResponse
  | validationError
  | lookupNotFound
  | ok (r : LookupBulkResult)
deriving DecidableEq, Repr

/-- `LookupController.addLookupValuesBulk`: body validation first, then
the lookup existence check, then batched per-item creates. -/
def addLookupValuesBulk
    (oracle : Nat → LookupValueInput → Except String (String × Nat))
    (db : LookupsDB) (lookupName : String) (values : List LookupValueInput) :
    LookupBulkResponse × LookupsDB :=
  if !validLookupValuesBulk values then (.validationError, db)
  else
    match findLookup db lookupName with
    | none => (.lookupNotFound, db)
    | some lk =>
      let r := runBulk (lookupAddStep lk oracle) ⟨0, 0, 0, [], []⟩ values
      (.ok r, { db with lookupValues := db.lookupValues ++ r.values })

/-! ## Lookup search (LookupController.searchLookupValues) -/

/-- Lower-cased character list of a string, for the Prisma
`mode: "insensitive"` contains filters. -/
def strLower (s : String) : List Char := s.data.map Char.toLower

/-- `{contains: search, mode: "insensitive"}`. -/
def containsCI (hay needle : String) : Bool :=
  decide (strLower needle <:+: strLower hay)

/-- The `whereClause` of `searchLookupValues`: always `lookupId`, exact
match on left/right when given and non-empty (`if (left) ...`), and the
case-insensitive OR-contains clause when `search` is given. -/
def searchWhere (lk : LookupRec) (left right search : Option String)
    (v : LookupValueRow) : Bool :=
  v.lookupId == lk.id
  && (match left with
      | none => true
      | some sl => if sl = "" then true else v.left == sl)
  && (match right with
      | none => true
      | some sr => if sr = "" then true else v.right == sr)
  && (match search with
      | none => true
      | some sq => if sq = "" then true else containsCI v.left sq || containsCI v.right sq)

/-- `orderBy: {createdAt: "desc"}`. -/
def newestFirst (a b : LookupValueRow) : Prop := b.createdAt ≤ a.createdAt

instance : DecidableRel newestFirst := fun a b => Nat.decLe b.createdAt a.createdAt

instance : IsTotal LookupValueRow newestFirst :=
  ⟨fun a b => (Nat.le_total b.createdAt a.createdAt).elim Or.inl Or.inr⟩

instance : IsTrans LookupValueRow newestFirst :=
  ⟨fun _ _ _ hab hbc => Nat.le_trans hbc hab⟩

/-- Response of `searchLookupValues`. -/
inductive SearchResponse
  | validationError
  | lookupNotFound
  | ok (values : List LookupValueRow)
deriving DecidableEq, Repr

/-- `LookupController.searchLookupValues`: the query schema coerces
`limit` into 1..100 with default 50, but the handler destructures only
`left`, `right`, `search`, so the query itself has no `take`. -/
def searchLookupValues (db : LookupsDB) (lookupName : String)
    (left right search : Option String) (limit : Option Nat) : SearchResponse :=
  if !(1 ≤ limit.getD 50 && limit.getD 50 ≤ 100) then .validationError
  else
    match findLookup db lookupName with
    | none => .lookupNotFound
    | some lk =>
      .ok ((db.lookupValues.filter (searchWhere lk left right search)).insertionSort
        newestFirst)

/-! ## Claim C9: search ignores the validated limit -/

/-- C9: for an existing Lookup and a valid limit parameter (coerced to
1..100, default 50), searchValues returns exactly the rows of that
Lookup matching the filters, ordered newest-first, and the limit is
never applied to the query: the response is identical for every valid
limit value, so the number of returned rows is not bounded by it. -/
theorem c9_search_values (db : LookupsDB) (lookupName : String)
    (left right search : Option String) (limit : Option Nat) (lk : LookupRec)
    (hlk : findLookup db lookupName = some lk)
    (hlo : 1 ≤ limit.getD 50) (hhi : limit.getD 50 ≤ 100) :
    searchLookupValues db lookupName left right search limit =
      .ok ((db.lookupValues.filter (searchWhere lk left right search)).insertionSort
        newestFirst)
    ∧ List.Sorted newestFirst
        ((db.lookupValues.filter (searchWhere lk left right search)).insertionSort
          newestFirst)
    ∧ ((db.lookupValues.filter (searchWhere lk left right search)).insertionSort
        newestFirst).Perm (db.lookupValues.filter (searchWhere lk left right search))
    ∧ (∀ n, 1 ≤ n → n ≤ 100 →
        searchLookupValues db lookupName left right search (some n)
          = searchLookupValues db lookupName left right search limit) := by
  have hrun : ∀ (l2 : Option Nat), 1 ≤ l2.getD 50 → l2.getD 50 ≤ 100 →
      searchLookupValues db lookupName left right search l2 =
        .ok ((db.lookupValues.filter (searchWhere lk left right search)).insertionSort
          newestFirst) := by
    intro l2 h1 h2
    rw [searchLookupValues]
    simp [h1, h2, hlk]
  refine ⟨hrun limit hlo hhi, List.sorted_insertionSort newestFirst _,
    List.perm_insertionSort newestFirst _, ?_⟩
  intro n hn1 hn2
  rw [hrun limit hlo hhi, hrun (some n) hn1 hn2]

/-- The two-row lookup store used to witness `c9_search_values`. -/
def c9Db : LookupsDB :=
  ⟨[⟨"L1", "lk"⟩],
   [⟨"v1", "L1", "Alpha", "x1", none, none, 10⟩,
    ⟨"v2", "L1", "beta", "x2", none, none, 20⟩]⟩

/-- Witness for `c9_search_values`: with limit 1 both rows come back,
newest first. -/
theorem c9_search_values_witness :
    (searchLookupValues c9Db "lk" none none none (some 1) =
      .ok ((c9Db.lookupValues.filter (searchWhere ⟨"L1", "lk"⟩ none none none)).insertionSort
        newestFirst)
    ∧ List.Sorted newestFirst
        ((c9Db.lookupValues.filter (searchWhere ⟨"L1", "lk"⟩ none none none)).insertionSort
          newestFirst)
    ∧ ((c9Db.lookupValues.filter (searchWhere ⟨"L1", "lk"⟩ none none none)).insertionSort
        newestFirst).Perm (c9Db.lookupValues.filter (searchWhere ⟨"L1", "lk"⟩ none none none))
    ∧ (∀ n, 1 ≤ n → n ≤ 100 →
        searchLookupValues c9Db "lk" none none none (some n)
          = searchLookupValues c9Db "lk" none none none (some 1)))
    ∧ searchLookupValues c9Db "lk" none none none (some 1) =
        .ok [⟨"v2", "L1", "beta", "x2", none, none, 20⟩,
             ⟨"v1", "L1", "Alpha", "x1", none, none, 10⟩]
    ∧ searchLookupValues c9Db "lk" none (some "x1") none (some 1) =
        .ok [⟨"v1", "L1", "Alpha", "x1", none, none, 10⟩]
    ∧ searchLookupValues c9Db "lk" none none (some "ALP") (some 1) =
        .ok [⟨"v1", "L1", "Alpha", "x1", none, none, 10⟩] :=
  ⟨c9_search_values c9Db "lk" none none none (some 1) ⟨"L1", "lk"⟩ rfl
      (by decide) (by decide),
   by decide, by decide, by decide⟩

/-! ## Claim C10: bulk size validation precedes everything -/

/-- C10: each bulk value operation (set add, set check, lookup add)
rejects an empty or over-1000-item values list with a ValidationError,
before any existence check or write: the store is returned exactly
unchanged, whatever it contains. -/
theorem c10_bulk_size_validation
    (oracleS : Nat → SetValueInput → Except String String)
    (oracleL : Nat → LookupValueInput → Except String (String × Nat))
    (dbS : SetsDB) (dbL : LookupsDB) (setName lookupName : String)
    (svals : List SetValueInput) (cvals : List String)
    (lvals : List LookupValueInput)
    (h1 : svals.length = 0 ∨ svals.length > 1000)
    (h2 : cvals.length = 0 ∨ cvals.length > 1000)
    (h3 : lvals.length = 0 ∨ lvals.length > 1000) :
    addSetValuesBulk oracleS dbS setName svals = (.validationError, dbS)
    ∧ checkSetValuesBulk dbS setName cvals = (.validationError, dbS)
    ∧ addLookupValuesBulk oracleL dbL lookupName lvals = (.validationError, dbL) := by
  have hv1 : validSetValuesBulk svals = false := by
    rcases h1 with h | h
    · simp [validSetValuesBulk, h]
    · simp [validSetValuesBulk, Nat.not_le.2 h]
  have hv2 : validCheckValuesBulk cvals = false := by
    rcases h2 with h | h
    · simp [validCheckValuesBulk, h]
    · simp [validCheckValuesBulk, Nat.not_le.2 h]
  have hv3 : validLookupValuesBulk lvals = false := by
    rcases h3 with h | h
    · simp [validLookupValuesBulk, h]
    · simp [validLookupValuesBulk, Nat.not_le.2 h]
  refine ⟨?_, ?_, ?_⟩
  · rw [addSetValuesBulk, hv1]
    rfl
  · rw [checkSetValuesBulk, hv2]
    rfl
  · rw [addLookupValuesBulk, hv3]
    rfl

/-- The lookup store used to witness `c10_bulk_size_validation`. -/
def c10LDb : LookupsDB := ⟨[⟨"L1", "lk"⟩], []⟩

/-- Witness for `c10_bulk_size_validation`: empty values lists against
stores whose target set and lookup do exist. -/
theorem c10_bulk_size_validation_witness :
    addSetValuesBulk c6Oracle c6Db "s" [] = (.validationError, c6Db)
    ∧ checkSetValuesBulk c6Db "s" [] = (.validationError, c6Db)
    ∧ addLookupValuesBulk (fun _ _ => .error "off") c10LDb "lk" []
        = (.validationError, c10LDb) :=
  c10_bulk_size_validation c6Oracle (fun _ _ => .error "off") c6Db c10LDb "s" "lk"
    [] [] [] (by decide) (by decide) (by decide)

end Stratagems
